import Mathlib

/-!
Verification development for the `frequenz-repo-config` repository.

The two self-contained routines of the repository are embedded shallowly:

* the `mike` version-manifest sorting CLI
  (`src/frequenz/repo/config/cli/version/mike/sort.py`), and
* the docstring code-example extraction and validation plugin
  (`src/frequenz/repo/config/pytest/examples.py`).

Conventions of the embedding:

* Multi-line strings are represented by their list of lines (`List String`);
  joining a list of single-line strings with a newline character produces a
  string with `length - 1` newline characters, so newline counts over joined
  strings become `List.length - 1` over the line lists.
* File-system paths are represented by their list of components, each
  component being its list of characters (`List (List Char)`), so that the
  character-level suffix logic of `pathlib` can be reasoned about with list
  lemmas.
* The external `pylint` process is an oracle parameter: a function from the
  submitted source to its exit status and captured standard output.
* Fallible Python code (raising `ValueError` or a failed `assert`) is
  embedded with `Except` / `Option` result types.
-/

/-! ## Version manifest sorting (`cli/version/mike/sort.py`)

The CLI module imports `MikeVersionInfo` and `sort_mike_versions` from
`frequenz.repo.config.mkdocs.mike`, a module that is not part of the source
tree under verification.  Both are therefore modelled from the spec.
-/

/-- Modelled from the spec: a version manifest entry.  The spec describes the
manifest as "a list of published documentation version labels and their
display aliases"; `mike`'s `versions.json` entries carry a version label, a
display title and a list of aliases. -/
structure MikeVersionInfo where
  version : String
  title : String
  aliases : List String
deriving DecidableEq, Repr

/-- Prefix test on character lists (kernel-reducible form of
`str.startswith`). -/
def listStartsWith : List Char → List Char → Bool
  | [], _ => true
  | _ :: _, [] => false
  | p :: ps, c :: cs => p = c && listStartsWith ps cs

/-- Split a character list on a separator character (Python `str.split`). -/
def splitOnChar (c : Char) : List Char → List (List Char)
  | [] => [[]]
  | a :: rest =>
    let r := splitOnChar c rest
    if a = c then [] :: r
    else
      match r with
      | [] => [[a]]
      | g :: gs => (a :: g) :: gs

/-- Parse a non-empty all-digit character list as a decimal number. -/
def digitsToNat? (l : List Char) : Option Nat :=
  if l = [] then none
  else
    l.foldl
      (fun acc c =>
        match acc with
        | some n =>
          if '0' ≤ c ∧ c ≤ '9' then some (n * 10 + (c.toNat - '0'.toNat))
          else none
        | none => none)
      (some 0)

/-- Parse a semantic-version tag such as "v1.2.3" or "1.2.3" into its
numeric components.  Named channels such as "latest" do not parse. -/
def parseSemver (s : String) : Option (Nat × Nat × Nat) :=
  let cs := s.toList
  let t := match cs with
    | 'v' :: rest => rest
    | _ => cs
  match splitOnChar '.' t with
  | [a, b, c] =>
    match digitsToNat? a, digitsToNat? b, digitsToNat? c with
    | some x, some y, some z => some (x, y, z)
    | _, _, _ => none
  | _ => none

/-- Sort key type: a lexicographic tuple ending in the raw version label, so
that the key determines the label. -/
abbrev VersionKey : Type := Nat ×ₗ Nat ×ₗ Nat ×ₗ Nat ×ₗ String

/-- Modelled from the spec: the custom comparator of `sort_mike_versions`
("takes a set of version descriptors (semantic-version tags and named
channels) and produces a strict total order").  Semantic-version tags are
ordered numerically; named channels are ordered after them by label; the raw
label is kept as the final tie-breaker so distinct labels always compare. -/
def sortKey (v : MikeVersionInfo) : VersionKey :=
  match parseSemver v.version with
  | some (x, y, z) => toLex (0, toLex (x, toLex (y, toLex (z, v.version))))
  | none => toLex (1, toLex (0, toLex (0, toLex (0, v.version))))

/-- Comparator relation used by the sort: non-strict comparison of keys. -/
def versionLe (a b : MikeVersionInfo) : Prop := sortKey a ≤ sortKey b

instance : DecidableRel versionLe := fun a b =>
  inferInstanceAs (Decidable (sortKey a ≤ sortKey b))

instance : IsTotal MikeVersionInfo versionLe :=
  ⟨fun a b => le_total (sortKey a) (sortKey b)⟩

instance : IsTrans MikeVersionInfo versionLe :=
  ⟨fun _ _ _ hab hbc => le_trans hab hbc⟩

/-- Modelled from the spec: `sort_mike_versions` orders the manifest entries
deterministically by the custom comparator (a stable sort, like Python's
`sorted`). -/
def sort_mike_versions (vs : List MikeVersionInfo) : List MikeVersionInfo :=
  vs.insertionSort versionLe

/-- Embedding of `_load_and_sort_versions_from`: the JSON decoding of the
stream is abstracted to the already-decoded list of manifest entries. -/
def _load_and_sort_versions_from (stream : List MikeVersionInfo) :
    List MikeVersionInfo :=
  sort_mike_versions stream

/-- Embedding of `_sort`: read the versions from the in-stream, sort them and
write them to the out-stream.  The JSON round-trip is abstracted away; the
function returns the list of entries written to the out-stream. -/
def _sort (stream_in : List MikeVersionInfo) : List MikeVersionInfo :=
  sort_mike_versions stream_in

/-- Projection recovering the raw version label from a sort key. -/
def keyVersion (k : VersionKey) : String :=
  (ofLex (ofLex (ofLex (ofLex k).2).2).2).2

theorem keyVersion_sortKey (v : MikeVersionInfo) :
    keyVersion (sortKey v) = v.version := by
  unfold sortKey
  cases parseSemver v.version with
  | none => rfl
  | some t =>
    obtain ⟨x, y, z⟩ := t
    rfl

theorem sortKey_eq_version_eq {a b : MikeVersionInfo}
    (h : sortKey a = sortKey b) : a.version = b.version := by
  have := congrArg keyVersion h
  rwa [keyVersion_sortKey, keyVersion_sortKey] at this

/-- Usage message printed by `main` on wrong argument count, with the
trailing newline added by `print`. -/
def usageMessage (prog : String) : String :=
  "Usage: " ++ prog ++ " [<versions.json>]\n\n" ++
    "If <versions.json> is given, the contents will be replaced with the " ++
    "sorted versions.\n" ++
    "Otherwise, the contents are read from stdin and the sorted versions " ++
    "are printed to stdout.\n\n"

/-- Observable effect of one run of the sort CLI. -/
inductive MainEffect where
  | stdout (written : List MikeVersionInfo)
  | rewrite (path : String) (contents : List MikeVersionInfo)
  | usage (stderrText : String) (exitCode : Nat)
deriving DecidableEq, Repr

/-- Embedding of `main`: `sys.argv` is `prog :: args`; the dispatch matches
on `len(sys.argv)` (`1`, `2`, catch-all).  Reading stdin and files is
abstracted into the already-decoded version lists. -/
def main_cli (prog : String) (args : List String)
    (stdin : List MikeVersionInfo)
    (readFile : String → List MikeVersionInfo) : MainEffect :=
  match args with
  | [] => .stdout (_load_and_sort_versions_from stdin)
  | [path] => .rewrite path (_load_and_sort_versions_from (readFile path))
  | _ => .usage (usageMessage prog) 2

/-! ## Claims C1, C3, C9 -/

/-- C1: the version-sort routine invoked via `_load_and_sort_versions_from`
produces a strictly totally ordered sequence: any two distinct descriptors
are comparable under the custom comparator, the output is strictly
increasing under it, and equal inputs yield equal output orders.  (The sort
itself is modelled from the spec, its module not being part of the sources
under verification.) -/
theorem load_and_sort_strict_total_order
    (vs ws : List MikeVersionInfo)
    (hnodup : (vs.map MikeVersionInfo.version).Nodup)
    (heq : vs = ws) :
    (∀ a b : MikeVersionInfo, a.version ≠ b.version →
        sortKey a < sortKey b ∨ sortKey b < sortKey a) ∧
    (_load_and_sort_versions_from vs).Pairwise
      (fun a b => sortKey a < sortKey b) ∧
    _load_and_sort_versions_from vs = _load_and_sort_versions_from ws := by
  refine ⟨?_, ?_, by rw [heq]⟩
  · intro a b hne
    rcases lt_trichotomy (sortKey a) (sortKey b) with h | h | h
    · exact Or.inl h
    · exact absurd (sortKey_eq_version_eq h) hne
    · exact Or.inr h
  · have hs : (sort_mike_versions vs).Pairwise versionLe :=
      List.sorted_insertionSort versionLe vs
    have hperm : (sort_mike_versions vs).Perm vs :=
      List.perm_insertionSort versionLe vs
    have hnd : ((sort_mike_versions vs).map MikeVersionInfo.version).Nodup :=
      ((hperm.map MikeVersionInfo.version).nodup_iff).mpr hnodup
    have hne : (sort_mike_versions vs).Pairwise
        (fun a b => a.version ≠ b.version) :=
      List.pairwise_map.mp hnd
    exact (hs.and hne).imp fun h =>
      lt_of_le_of_ne h.1 fun hk => h.2 (sortKey_eq_version_eq hk)

/-- Witness for C1 at a concrete two-entry manifest. -/
theorem load_and_sort_strict_total_order_witness :
    (([⟨"v1.0.0", "v1.0.0", []⟩,
       ⟨"latest", "latest", ["latest"]⟩].map MikeVersionInfo.version).Nodup ∧
     [(⟨"v1.0.0", "v1.0.0", []⟩ : MikeVersionInfo),
      ⟨"latest", "latest", ["latest"]⟩] =
      [⟨"v1.0.0", "v1.0.0", []⟩, ⟨"latest", "latest", ["latest"]⟩]) ∧
    ((∀ a b : MikeVersionInfo, a.version ≠ b.version →
        sortKey a < sortKey b ∨ sortKey b < sortKey a) ∧
     (_load_and_sort_versions_from
        [⟨"v1.0.0", "v1.0.0", []⟩,
         ⟨"latest", "latest", ["latest"]⟩]).Pairwise
        (fun a b => sortKey a < sortKey b) ∧
     _load_and_sort_versions_from
        [⟨"v1.0.0", "v1.0.0", []⟩, ⟨"latest", "latest", ["latest"]⟩] =
       _load_and_sort_versions_from
        [⟨"v1.0.0", "v1.0.0", []⟩, ⟨"latest", "latest", ["latest"]⟩]) :=
  ⟨⟨by decide, rfl⟩,
   load_and_sort_strict_total_order _ _ (by decide) rfl⟩

/-- C3: the output of `_sort` is a permutation of the input: every manifest
entry (version label, title and aliases) appears unchanged, only the order
differs. -/
theorem sort_output_perm_input (stream_in : List MikeVersionInfo) :
    (_sort stream_in).Perm stream_in :=
  List.perm_insertionSort versionLe stream_in

/-- C9: `main` dispatches solely on the argument count: no arguments reads
stdin and writes the sorted manifest to stdout; one argument rewrites that
file with its sorted contents; more than one argument emits only the usage
message on stderr and exits with code 2. -/
theorem main_dispatch (prog : String) (args : List String)
    (stdin : List MikeVersionInfo)
    (readFile : String → List MikeVersionInfo) :
    (args = [] →
      main_cli prog args stdin readFile = .stdout (sort_mike_versions stdin)) ∧
    (∀ f, args = [f] →
      main_cli prog args stdin readFile =
        .rewrite f (sort_mike_versions (readFile f))) ∧
    (2 ≤ args.length →
      main_cli prog args stdin readFile = .usage (usageMessage prog) 2) := by
  refine ⟨fun h => by rw [h]; rfl, fun f h => by rw [h]; rfl, fun h => ?_⟩
  match args with
  | [] => simp at h
  | [a] => simp at h
  | a :: b :: rest => rfl

/-- Witness for C9 at concrete argument vectors for all three branches. -/
theorem main_dispatch_witness :
    (main_cli "sort" [] [⟨"latest", "latest", []⟩] (fun _ => []) =
      .stdout (sort_mike_versions [⟨"latest", "latest", []⟩])) ∧
    (main_cli "sort" ["versions.json"] [] (fun _ => [⟨"v1.0.0", "v1.0.0", []⟩]) =
      .rewrite "versions.json"
        (sort_mike_versions [⟨"v1.0.0", "v1.0.0", []⟩])) ∧
    (main_cli "sort" ["a", "b"] [] (fun _ => []) =
      .usage (usageMessage "sort") 2) :=
  ⟨(main_dispatch "sort" [] _ _).1 rfl,
   (main_dispatch "sort" ["versions.json"] [] _).2.1 "versions.json" rfl,
   (main_dispatch "sort" ["a", "b"] [] _).2.2 (by decide)⟩

/-! ## Character-level utilities (`pathlib` suffix logic, `str.join`) -/

/-- Python's `str.rfind`: index of the last occurrence of `c`, if any. -/
def pyRfind : List Char → Char → Option Nat
  | [], _ => none
  | a :: rest, c =>
    match pyRfind rest c with
    | some j => some (j + 1)
    | none => if a = c then some (0 : Nat) else none

/-- Suffix of a path component as computed by `pathlib.PurePath.suffix`: the
segment from the last dot, provided that dot is neither the first nor the
last character; otherwise the empty suffix. -/
def pySuffix (name : List Char) : List Char :=
  match pyRfind name '.' with
  | some i => if 0 < i && i + 1 < name.length then name.drop i else []
  | none => []

/-- Python's `'.'.join` on character lists. -/
def joinDots : List (List Char) → List Char
  | [] => []
  | [p] => p
  | p :: q :: ps => p ++ '.' :: joinDots (q :: ps)

/-- Python's `'\n'.join` on strings. -/
def joinLines : List String → String
  | [] => ""
  | [l] => l
  | l :: k :: ls => l ++ "\n" ++ joinLines (k :: ls)

/-- Removal of a leading "src" component (lines 107-109 of `examples.py`). -/
def dropSrcPart (ps : List (List Char)) : List (List Char) :=
  match ps with
  | p :: rest => if p = "src".toList then rest else ps
  | [] => ps

/-- Embedding of `_path_to_import_statement`.  The path is already relative
(`evaluate` passes `os.path.relpath(example.path)`) and is represented by its
list of components.  A `ValueError` is an `Except.error` carrying the
message. -/
def _path_to_import_statement (parts : List (List Char)) :
    Except (List Char) (List Char) :=
  if pySuffix (parts.getLastD []) ≠ ".py".toList then
    .error "Path must point to a Python file (.py)".toList
  else
    let parts2 := dropSrcPart parts
    let joined := joinDots parts2
    let module_path := joined.take (joined.length - 3)
    .ok ("from ".toList ++ module_path ++ " import *".toList)

theorem pyRfind_append_some (xs ys : List Char) (c : Char) (j : Nat)
    (h : pyRfind ys c = some j) :
    pyRfind (xs ++ ys) c = some (xs.length + j) := by
  induction xs with
  | nil => simpa using h
  | cons a rest ih =>
    have hstep : pyRfind ((a :: rest) ++ ys) c =
        match pyRfind (rest ++ ys) c with
        | some j => some (j + 1)
        | none => if a = c then some (0 : Nat) else none := rfl
    rw [hstep, ih]
    show some (rest.length + j + 1) = some (rest.length + 1 + j)
    exact congrArg some (by omega)

theorem pySuffix_stem_py (stem : List Char) (hs : stem ≠ []) :
    pySuffix (stem ++ ".py".toList) = ".py".toList := by
  have h3 : pyRfind ".py".toList '.' = some 0 := by decide
  have h0 : 0 < stem.length := List.length_pos.mpr hs
  unfold pySuffix
  rw [pyRfind_append_some _ _ _ _ h3, Nat.add_zero]
  show (if (decide (0 < stem.length) &&
        decide (stem.length + 1 < (stem ++ ".py".toList).length)) = true
      then List.drop stem.length (stem ++ ".py".toList) else []) =
    ".py".toList
  rw [if_pos]
  · exact List.drop_left stem _
  · simp only [List.length_append, Bool.and_eq_true, decide_eq_true_eq]
    have h3l : (".py".toList).length = 3 := by decide
    rw [h3l]
    exact ⟨h0, by omega⟩

theorem joinDots_concat_append (ps : List (List Char)) (q r : List Char) :
    joinDots (ps ++ [q ++ r]) = joinDots (ps ++ [q]) ++ r := by
  induction ps with
  | nil => rfl
  | cons a t ih =>
    cases t with
    | nil => simp [joinDots, List.append_assoc]
    | cons b s =>
      simp only [List.cons_append, List.append_eq, joinDots] at ih ⊢
      rw [ih]
      simp [List.append_assoc]

theorem dropSrcPart_concat (init : List (List Char)) (x : List Char)
    (hx : x ≠ "src".toList) :
    dropSrcPart (init ++ [x]) =
      (if init.head? = some "src".toList then init.tail else init) ++ [x] := by
  cases init with
  | nil =>
    show (if x = "src".toList then [] else [x]) =
      (if ([] : List (List Char)).head? = some "src".toList
        then ([] : List (List Char)).tail else []) ++ [x]
    rw [if_neg hx, if_neg (by simp)]
    rfl
  | cons a t =>
    show (if a = "src".toList then t ++ [x] else a :: (t ++ [x])) =
      (if (a :: t).head? = some "src".toList then t else a :: t) ++ [x]
    rw [List.head?_cons]
    by_cases h : a = "src".toList
    · rw [if_pos h, if_pos (by rw [h])]
    · rw [if_neg h, if_neg (by simpa using h), List.cons_append]

/-- C8: `_path_to_import_statement` raises `ValueError` exactly when the
path's suffix is not ".py"; on a relative path with suffix ".py" it returns
"from (dotted module) import *", the dotted module being the components
joined with dots, a leading "src" component removed when present, and the
trailing ".py" dropped. -/
theorem path_to_import_statement_spec
    (init : List (List Char)) (stem : List Char) (hs : stem ≠ []) :
    (∀ parts : List (List Char),
        (∃ e, _path_to_import_statement parts = .error e) ↔
          pySuffix (parts.getLastD []) ≠ ".py".toList) ∧
    _path_to_import_statement (init ++ [stem ++ ".py".toList]) =
      .ok ("from ".toList ++
        joinDots ((if init.head? = some "src".toList then init.tail
          else init) ++ [stem]) ++ " import *".toList) := by
  constructor
  · intro parts
    unfold _path_to_import_statement
    by_cases h : pySuffix (parts.getLastD []) = ".py".toList
    · rw [if_neg (not_not_intro h)]
      simp only [reduceCtorEq, exists_false, false_iff, not_not]
      simpa using h
    · rw [if_pos h]
      simp only [Except.error.injEq, exists_eq', true_iff]
      simpa using h
  · have hlast : (init ++ [stem ++ ".py".toList]).getLastD [] =
        stem ++ ".py".toList := by
      rw [List.getLastD_eq_getLast?, List.getLast?_concat]
      rfl
    have hsuf2 : pySuffix ((init ++ [stem ++ ".py".toList]).getLastD []) =
        ".py".toList := by
      rw [hlast]
      exact pySuffix_stem_py stem hs
    have hx : stem ++ ".py".toList ≠ "src".toList := by
      intro h
      have hlen2 := congrArg List.length h
      have h0 : 0 < stem.length := List.length_pos.mpr hs
      have e1 : (".py".toList).length = 3 := by decide
      have e2 : ("src".toList).length = 3 := by decide
      rw [List.length_append, e1, e2] at hlen2
      omega
    unfold _path_to_import_statement
    rw [if_neg (not_not_intro hsuf2)]
    simp only [dropSrcPart_concat _ _ hx]
    rw [joinDots_concat_append]
    generalize joinDots ((if init.head? = some "src".toList then init.tail
      else init) ++ [stem]) = A
    have h1 : (A ++ ".py".toList).length - 3 = A.length := by
      have e1 : (".py".toList).length = 3 := by decide
      rw [List.length_append, e1]
      omega
    rw [h1, List.take_left]

/-- Witness for C8 at the concrete path "docs/example.py". -/
theorem path_to_import_statement_spec_witness :
    ("example".toList ≠ ([] : List Char)) ∧
    ((∀ parts : List (List Char),
        (∃ e, _path_to_import_statement parts = .error e) ↔
          pySuffix (parts.getLastD []) ≠ ".py".toList) ∧
     _path_to_import_statement
        (["docs".toList] ++ ["example".toList ++ ".py".toList]) =
      .ok ("from ".toList ++
        joinDots ((if (["docs".toList] : List (List Char)).head? =
            some "src".toList
          then (["docs".toList] : List (List Char)).tail
          else ["docs".toList]) ++ ["example".toList]) ++
        " import *".toList)) :=
  ⟨by decide,
   path_to_import_statement_spec ["docs".toList] "example".toList
     (by decide)⟩

/-! ## Python `ast` model for `_get_import_statements`

The model is line-granular: `ast.parse` produces a module node (which, as in
CPython, carries no location information) whose children are one statement
node per line, located at that line with the column range of the statement
(indentation excluded).  `ast.walk` is the breadth-first traversal CPython
implements with a deque.  `ast.get_source_segment` returns `none` exactly
when the node carries no location information, and otherwise slices the
source by the recorded line/column range (character columns standing in for
CPython's byte offsets). -/

def isTabOrSpace (c : Char) : Bool := c = ' ' || c = '\t'

inductive NodeKind where
  | importNode
  | importFromNode
  | otherNode
deriving DecidableEq, Repr

structure SourceLoc where
  lineno : Nat
  colOffset : Nat
  endLineno : Nat
  endColOffset : Nat
deriving DecidableEq, Repr

inductive PyNode where
  | node (kind : NodeKind) (loc : Option SourceLoc) (children : List PyNode)

def PyNode.kind : PyNode → NodeKind
  | .node k _ _ => k

def PyNode.loc : PyNode → Option SourceLoc
  | .node _ l _ => l

def PyNode.children : PyNode → List PyNode
  | .node _ _ c => c

def PyNode.size : PyNode → Nat
  | .node _ _ cs => 1 + (cs.attach.map fun c => c.1.size).sum
decreasing_by
  have := List.sizeOf_lt_sizeOf_of_mem c.2
  simp only [PyNode.node.sizeOf_spec] at *
  omega

theorem PyNode.size_eq (n : PyNode) :
    n.size = 1 + (n.children.map PyNode.size).sum := by
  cases n with
  | node k l cs =>
    simp only [PyNode.size, PyNode.children]
    rw [List.attach_map_val cs PyNode.size]

theorem size_children_lt (n : PyNode) :
    ((n.children.map PyNode.size).sum) < n.size := by
  rw [PyNode.size_eq]
  omega

/-- Embedding of `ast.walk`: breadth-first traversal over a work queue. -/
def walkAux : List PyNode → List PyNode
  | [] => []
  | n :: rest => n :: walkAux (rest ++ n.children)
termination_by q => (q.map PyNode.size).sum
decreasing_by
  simp only [List.map_append, List.sum_append, List.map_cons, List.sum_cons]
  have := size_children_lt n
  omega

def walk (t : PyNode) : List PyNode := walkAux [t]

theorem walkAux_nil : walkAux [] = [] := by
  simp only [walkAux]

theorem walkAux_cons (n : PyNode) (rest : List PyNode) :
    walkAux (n :: rest) = n :: walkAux (rest ++ n.children) := by
  simp only [walkAux]

/-- ast.walk visits every node of the tree exactly once: the traversal of a
queue has as many entries as the total number of nodes in the queue. -/
theorem walkAux_length (q : List PyNode) :
    (walkAux q).length = (q.map PyNode.size).sum := by
  suffices H : ∀ N q, ((q : List PyNode).map PyNode.size).sum = N →
      (walkAux q).length = (q.map PyNode.size).sum from H _ q rfl
  intro N
  induction N using Nat.strong_induction_on with
  | _ N ih =>
    intro q hq
    cases q with
    | nil => simp [walkAux_nil]
    | cons n rest =>
      rw [walkAux_cons]
      have hsum : ((rest ++ n.children).map PyNode.size).sum =
          (rest.map PyNode.size).sum + ((n.children.map PyNode.size).sum) := by
        simp [List.map_append, List.sum_append]
      have hlt : ((rest ++ n.children).map PyNode.size).sum < N := by
        rw [← hq]
        simp only [List.map_cons, List.sum_cons, hsum]
        have := size_children_lt n
        omega
      have hrec := ih _ hlt (rest ++ n.children) rfl
      simp only [List.length_cons, hrec, hsum, List.map_cons, List.sum_cons]
      rw [PyNode.size_eq n]
      omega

theorem walkAux_flat (q : List PyNode)
    (h : ∀ n ∈ q, n.children = []) : walkAux q = q := by
  induction q with
  | nil => exact walkAux_nil
  | cons n rest ih =>
    rw [walkAux_cons, h n (by simp), List.append_nil,
      ih fun m hm => h m (by simp [hm])]

/-- Test performed by the `isinstance(node, (ast.Import, ast.ImportFrom))`
check of `_get_import_statements`. -/
def isImportNode (n : PyNode) : Bool :=
  match n.kind with
  | .importNode => true
  | .importFromNode => true
  | .otherNode => false

/-- Slice of the source selected by a location record, as in CPython's
`ast.get_source_segment` (`padded=False`). -/
def sliceSegment (codeLines : List String) (l : SourceLoc) : String :=
  if l.lineno = l.endLineno then
    ((codeLines.getD (l.lineno - 1) "").drop l.colOffset).take
      (l.endColOffset - l.colOffset)
  else
    let first := (codeLines.getD (l.lineno - 1) "").drop l.colOffset
    let middle := (codeLines.drop l.lineno).take (l.endLineno - 1 - l.lineno)
    let last := (codeLines.getD (l.endLineno - 1) "").take l.endColOffset
    joinLines ([first] ++ middle ++ [last])

/-- Embedding of `ast.get_source_segment`: `none` exactly when the node
carries no location information. -/
def get_source_segment (codeLines : List String) (n : PyNode) :
    Option String :=
  match n.loc with
  | none => none
  | some l => some (sliceSegment codeLines l)

/-- Statement classification of the line-granular parser model. -/
def classifyLine (l : String) : NodeKind :=
  let stripped := l.toList.dropWhile isTabOrSpace
  if listStartsWith "import ".toList stripped then .importNode
  else if listStartsWith "from ".toList stripped then .importFromNode
  else .otherNode

/-- Statement node for line `i` (0-based): located on that line, columns
covering the statement text after the indentation. -/
def stmtOfLine (i : Nat) (l : String) : PyNode :=
  .node (classifyLine l)
    (some ⟨i + 1, (l.toList.takeWhile isTabOrSpace).length, i + 1, l.length⟩)
    []

/-- Model of `ast.parse`: a module node without location information whose
children are the per-line statement nodes. -/
def ast_parse (codeLines : List String) : PyNode :=
  .node .otherNode none (codeLines.enum.map fun p => stmtOfLine p.1 p.2)

/-- Loop body of `_get_import_statements`: walk the nodes, keep the source
segments of import nodes, fail (`none`) if the `assert` fails. -/
def collectImports (codeLines : List String) (nodes : List PyNode)
    (acc : List String) : Option (List String) :=
  match nodes with
  | [] => some acc
  | n :: rest =>
    if isImportNode n then
      match get_source_segment codeLines n with
      | none => none
      | some seg => collectImports codeLines rest (acc ++ [seg])
    else collectImports codeLines rest acc

/-- Embedding of `_get_import_statements`: parse the code, walk the tree and
collect the import statements' source segments; `none` models a failed
`assert`. -/
def _get_import_statements (codeLines : List String) :
    Option (List String) :=
  collectImports codeLines (walk (ast_parse codeLines)) []

theorem walk_parse (codeLines : List String) :
    walk (ast_parse codeLines) =
      ast_parse codeLines ::
        (codeLines.enum.map fun p => stmtOfLine p.1 p.2) := by
  unfold walk
  rw [walkAux_cons, List.nil_append]
  have hch : (ast_parse codeLines).children =
      codeLines.enum.map fun p => stmtOfLine p.1 p.2 := rfl
  rw [hch, walkAux_flat]
  intro n hn
  rw [List.mem_map] at hn
  obtain ⟨p, _, rfl⟩ := hn
  rfl

theorem collectImports_eq (codeLines : List String) (nodes : List PyNode)
    (acc : List String)
    (h : ∀ n ∈ nodes, isImportNode n = true →
      (get_source_segment codeLines n).isSome = true) :
    collectImports codeLines nodes acc =
      some (acc ++ (nodes.filter isImportNode).map
        fun n => (get_source_segment codeLines n).getD "") := by
  induction nodes generalizing acc with
  | nil => simp [collectImports]
  | cons n rest ih =>
    have hrest : ∀ m ∈ rest, isImportNode m = true →
        (get_source_segment codeLines m).isSome = true :=
      fun m hm => h m (by simp [hm])
    by_cases hn : isImportNode n = true
    · obtain ⟨seg, hseg⟩ :=
        Option.isSome_iff_exists.mp (h n (by simp) hn)
      show (if isImportNode n then
          match get_source_segment codeLines n with
          | none => none
          | some seg => collectImports codeLines rest (acc ++ [seg])
        else collectImports codeLines rest acc) = _
      rw [if_pos hn, hseg]
      show collectImports codeLines rest (acc ++ [seg]) = _
      rw [ih _ hrest, List.filter_cons_of_pos hn, List.map_cons, hseg]
      simp [List.append_assoc]
    · show (if isImportNode n then
          match get_source_segment codeLines n with
          | none => none
          | some seg => collectImports codeLines rest (acc ++ [seg])
        else collectImports codeLines rest acc) = _
      rw [if_neg hn, ih _ hrest,
        List.filter_cons_of_neg (by simpa using hn)]

theorem parsed_import_isSome (codeLines : List String) :
    ∀ n ∈ walk (ast_parse codeLines), isImportNode n = true →
      (get_source_segment codeLines n).isSome = true := by
  intro n hn himp
  rw [walk_parse] at hn
  rcases List.mem_cons.mp hn with h | h
  · subst h
    exact absurd himp (by simp [isImportNode, ast_parse, PyNode.kind])
  · rw [List.mem_map] at h
    obtain ⟨p, _, rfl⟩ := h
    rfl

/-- C10: the `assert` in `_get_import_statements` never fails: every import
or import-from node of a tree produced by parsing carries location
information, so `ast.get_source_segment` returns a source segment for it,
and the collection never aborts. -/
theorem get_import_statements_assert_never_fails (codeLines : List String) :
    (∀ n ∈ walk (ast_parse codeLines), isImportNode n = true →
      (get_source_segment codeLines n).isSome = true) ∧
    _get_import_statements codeLines ≠ none := by
  refine ⟨parsed_import_isSome codeLines, ?_⟩
  unfold _get_import_statements
  rw [collectImports_eq codeLines _ [] (parsed_import_isSome codeLines)]
  simp

/-- C5: `_get_import_statements` returns exactly the source segments of
the import and import-from nodes of the parsed tree, in `ast.walk` order
and nothing else, and the walk is a single pass: it enumerates each node of
the tree exactly once. -/
theorem get_import_statements_exact (codeLines : List String) :
    _get_import_statements codeLines =
      some (((walk (ast_parse codeLines)).filter isImportNode).map
        fun n => (get_source_segment codeLines n).getD "") ∧
    (walk (ast_parse codeLines)).length =
      PyNode.size (ast_parse codeLines) := by
  constructor
  · unfold _get_import_statements
    rw [collectImports_eq codeLines _ [] (parsed_import_isSome codeLines)]
    simp
  · unfold walk
    rw [walkAux_length]
    simp

/-! ## Example extraction and validation (`pytest/examples.py`)

The `evaluate` method of `_CustomPythonCodeBlockParser` is embedded in the
lines model: `example.document.text` is its list of lines, the region
`document.text[example.start:example.end]` is its list of lines (the opening
fence line first), `example.line` is the 1-based line number of the region
start, and `example.path` (already relativised by `os.path.relpath`) is its
list of components.  The joined import header consists of single-line
entries, so `imports_code.count("\n")` is the number of header entries minus
one. -/

/-- Drop the empty trailing segment produced by a terminal line break, as
`str.splitlines` does. -/
def pySplitTrim (gs : List (List Char)) : List (List Char) :=
  if gs.getLast? = some [] then gs.dropLast else gs

/-- Python's `str.splitlines` restricted to "\n" line breaks. -/
def pySplitlines (s : String) : List String :=
  if s.toList = [] then []
  else (pySplitTrim (splitOnChar '\n' s.toList)).map String.mk

/-- The `_PYLINT_DISABLE_COMMENT` template applied to a mode. -/
def pylintDisableComment (mode : String) : String :=
  "# pylint: " ++ mode ++
    "=unused-import,wildcard-import,unused-wildcard-import"

/-- The `_FORMAT_STRING` template literal. -/
def _FORMAT_STRING : String :=
  "\n# Generated auto-imports for code example\n{disable_pylint}\n{imports}\n{enable_pylint}\n\n{code}"

/-- Newline count of the template, as in `_FORMAT_STRING.count("\n")`. -/
def formatStringNewlineCount : Nat := _FORMAT_STRING.toList.count '\n'

theorem formatStringNewlineCount_eq : formatStringNewlineCount = 6 := by
  decide

/-- Lines of `_FORMAT_STRING.format(disable_pylint=..., imports=...,
enable_pylint=..., code=...)`: the template lines with the imports and the
code spliced in. -/
def formatLines (importsLines codeLines : List String) : List String :=
  ["", "# Generated auto-imports for code example",
    pylintDisableComment "disable"] ++ importsLines ++
  [pylintDisableComment "enable", ""] ++ codeLines

/-- Longest common prefix of two character lists. -/
def commonLead : List Char → List Char → List Char
  | a :: as, b :: bs => if a = b then a :: commonLead as bs else []
  | _, _ => []

/-- Margin computed by `textwrap.dedent`: the longest common whitespace
prefix of the lines that have non-whitespace content. -/
def dedentMargin (ls : List String) : List Char :=
  match ls.filterMap (fun l =>
    if l.toList.any (fun c => !(isTabOrSpace c)) then
      some (l.toList.takeWhile isTabOrSpace)
    else none) with
  | [] => []
  | m :: ms => ms.foldl commonLead m

/-- Embedding of `textwrap.dedent` in the lines model: whitespace-only lines
are normalised to empty lines and the common margin is removed from the
rest.  The number of lines is unchanged. -/
def dedentLines (ls : List String) : List String :=
  let margin := dedentMargin ls
  ls.map fun l =>
    if l.toList.all isTabOrSpace then ""
    else String.mk (l.toList.drop margin.length)

/-- Embedding of sybil's `pad(source, line)`, which prepends `line * "\n"`:
in the lines model, `line` empty lines (none when `line` is negative, as in
Python string repetition). -/
def padLines (n : Int) (ls : List String) : List String :=
  List.replicate n.toNat "" ++ ls

/-- Extracted code example, in the lines model. -/
structure PyExample where
  docLines : List String
  regionLines : List String
  line : Nat
  pathParts : List (List Char)

/-- Outcome of one `pylint` subprocess run: whether it exited with status
zero, and its captured standard output. -/
structure PylintResult where
  exitZero : Bool
  output : String

/-- The external pylint process, abstracted: a function of the submitted
source, the path and the disable parameters. -/
abbrev PylintOracle :=
  List String → List (List Char) → List String → PylintResult

/-- The `pylint_disable_params` list built in `evaluate`. -/
def pylint_disable_params : List String :=
  ["missing-module-docstring", "missing-class-docstring",
   "missing-function-docstring", "reimported", "unused-variable",
   "no-name-in-module", "await-outside-async"]

/-- Embedding of `_validate_with_pylint`: run the checker; on a non-zero
exit status return the captured output's lines (`CalledProcessError.output`
split with `splitlines`), otherwise the empty list. -/
def _validate_with_pylint (oracle : PylintOracle)
    (code_example : List String) (path : List (List Char))
    (disable_params : List String) : List String :=
  let result := oracle code_example path disable_params
  if result.exitZero then [] else pySplitlines result.output

/-- Import header built by `evaluate` (lines 150-156 of `examples.py`): the
document's import statements followed by the wildcard import of the file
itself.  An `Except.error` models an uncaught exception (failed `assert` or
`ValueError`). -/
def importHeaderOf (ex : PyExample) : Except String (List String) :=
  match _get_import_statements ex.docLines with
  | none => .error "AssertionError"
  | some ih =>
    match _path_to_import_statement ex.pathParts with
    | .error e => .error (String.mk e)
    | .ok w => .ok (ih ++ [String.mk w])

/-- The `example_code` variable of `evaluate`: the dedented region with its
first line (the opening triple-backtick line) removed. -/
def exampleCodeOf (ex : PyExample) : List String :=
  (dedentLines ex.regionLines).drop 1

/-- The `example_with_imports` variable of `evaluate`. -/
def exampleWithImports (ex : PyExample) : Except String (List String) :=
  match importHeaderOf ex with
  | .error e => .error e
  | .ok h => .ok (formatLines h (exampleCodeOf ex))

/-- The `source` variable of `evaluate`: the formatted snippet padded with
`example.line - imports_code.count("\n") - _FORMAT_STRING.count("\n")`
blank lines. -/
def sourceOf (ex : PyExample) : Except String (List String) :=
  match importHeaderOf ex with
  | .error e => .error e
  | .ok h =>
    .ok (padLines ((ex.line : Int) - ((h.length : Int) - 1) -
        (formatStringNewlineCount : Int))
      (formatLines h (exampleCodeOf ex)))

/-- Embedding of `_CustomPythonCodeBlockParser.evaluate`: build the
formatted snippet and the padded source, run the checker, and either report
its output lines appended to the snippet or succeed with `none`. -/
def evaluate (oracle : PylintOracle) (ex : PyExample) :
    Except String (Option String) :=
  match exampleWithImports ex, sourceOf ex with
  | .ok ewi, .ok src =>
    if 0 < (_validate_with_pylint oracle src ex.pathParts
        pylint_disable_params).length then
      .ok (some ("Pylint validation failed for code example:\n" ++
        joinLines ewi ++ "\nOutput: " ++
        joinLines (_validate_with_pylint oracle src ex.pathParts
          pylint_disable_params)))
    else
      .ok none
  | .error e, _ => .error e
  | .ok _, .error e => .error e

theorem dedentLines_length (ls : List String) :
    (dedentLines ls).length = ls.length := by
  simp [dedentLines]

/-- C2 (amended): provided the pad amount is nonnegative — `example.line` is
at least the import-header length plus five, i.e. at least
`imports_code.count("\n") + _FORMAT_STRING.count("\n")` — every line of the
original code fence body occupies the same line number in the padded source
submitted to the external checker as it does in the original document
(dedenting changes line contents but neither line count nor line numbers). -/
theorem evaluate_line_number_faithful
    (ex : PyExample) (pre post body : List String) (openLine : String)
    (ih src : List String)
    (hdoc : ex.docLines = pre ++ ex.regionLines ++ post)
    (hregion : ex.regionLines = openLine :: body)
    (hline : ex.line = pre.length + 1)
    (hih : importHeaderOf ex = .ok ih)
    (hpad : (ih.length : Int) + 5 ≤ (ex.line : Int))
    (hsrc : sourceOf ex = .ok src) :
    (dedentLines ex.regionLines).length = ex.regionLines.length ∧
    ∀ j, 1 ≤ j → j < ex.regionLines.length →
      src[pre.length + j]? = (dedentLines ex.regionLines)[j]? ∧
      ex.docLines[pre.length + j]? = ex.regionLines[j]? := by
  refine ⟨dedentLines_length _, ?_⟩
  intro j hj1 hj2
  unfold sourceOf at hsrc
  rw [hih, Except.ok.injEq] at hsrc
  subst hsrc
  constructor
  · have hform : formatLines ih (exampleCodeOf ex) =
        (["", "# Generated auto-imports for code example",
          pylintDisableComment "disable"] ++ ih ++
          [pylintDisableComment "enable", ""]) ++ exampleCodeOf ex := by
      simp [formatLines, List.append_assoc]
    show (List.replicate ((ex.line : Int) - ((ih.length : Int) - 1) -
        (formatStringNewlineCount : Int)).toNat "" ++
        formatLines ih (exampleCodeOf ex))[pre.length + j]? = _
    rw [hform]
    have hfc : (formatStringNewlineCount : Int) = 6 := by
      rw [formatStringNewlineCount_eq]
      rfl
    rw [hfc]
    generalize hPn : ((ex.line : Int) - ((ih.length : Int) - 1) -
        (6 : Int)).toNat = P
    have hBlen : (["", "# Generated auto-imports for code example",
        pylintDisableComment "disable"] ++ ih ++
        [pylintDisableComment "enable", ""]).length = ih.length + 5 := by
      simp
    have hPT : P + (ih.length + 5) = pre.length + 1 := by
      rw [← hPn, ← hline]
      omega
    rw [List.getElem?_append_right
      (by rw [List.length_replicate]; omega)]
    rw [List.length_replicate]
    rw [List.getElem?_append_right (by rw [hBlen]; omega)]
    rw [hBlen]
    have hidx : pre.length + j - P - (ih.length + 5) = j - 1 := by omega
    rw [hidx]
    show ((dedentLines ex.regionLines).drop 1)[j - 1]? = _
    rw [List.getElem?_drop]
    have hone : 1 + (j - 1) = j := by omega
    rw [hone]
  · rw [hdoc, List.append_assoc]
    rw [List.getElem?_append_right (by omega)]
    have h2 : pre.length + j - pre.length = j := by omega
    rw [h2]
    exact List.getElem?_append_left hj2

/-- Evaluation form of `_get_import_statements`: the breadth-first walk of a
parsed module is the module followed by its statement nodes. -/
theorem _get_import_statements_eval (codeLines : List String) :
    _get_import_statements codeLines =
      collectImports codeLines
        (ast_parse codeLines ::
          (codeLines.enum.map fun p => stmtOfLine p.1 p.2)) [] := by
  unfold _get_import_statements
  rw [walk_parse]

/-- Concrete example used as the C2 witness: a fence opening on line 6. -/
def exampleW2 : PyExample :=
  { docLines := ["a", "b", "c", "d", "e", "```python", "x = 1", "```"],
    regionLines := ["```python", "x = 1"], line := 6,
    pathParts := ["example.py".toList] }

/-- Padded source produced for `exampleW2`. -/
def srcW2 : List String :=
  ["", "# Generated auto-imports for code example",
   pylintDisableComment "disable", "from example import *",
   pylintDisableComment "enable", "", "x = 1"]

theorem sourceOf_exampleW2 : sourceOf exampleW2 = .ok srcW2 := by
  unfold sourceOf importHeaderOf
  rw [_get_import_statements_eval]
  rfl

/-- Witness for C2 at `exampleW2`. -/
theorem evaluate_line_number_faithful_witness :
    (exampleW2.docLines =
        ["a", "b", "c", "d", "e"] ++ exampleW2.regionLines ++ ["```"] ∧
     exampleW2.regionLines = "```python" :: ["x = 1"] ∧
     exampleW2.line = (["a", "b", "c", "d", "e"] : List String).length + 1 ∧
     importHeaderOf exampleW2 = .ok ["from example import *"] ∧
     ((["from example import *"] : List String).length : Int) + 5 ≤
        (exampleW2.line : Int) ∧
     sourceOf exampleW2 = .ok srcW2) ∧
    ((dedentLines exampleW2.regionLines).length =
        exampleW2.regionLines.length ∧
     ∀ j, 1 ≤ j → j < exampleW2.regionLines.length →
      srcW2[(["a", "b", "c", "d", "e"] : List String).length + j]? =
        (dedentLines exampleW2.regionLines)[j]? ∧
      exampleW2.docLines[(["a", "b", "c", "d", "e"] :
          List String).length + j]? = exampleW2.regionLines[j]?) :=
  ⟨⟨rfl, rfl, rfl,
    by unfold importHeaderOf; rw [_get_import_statements_eval]; rfl,
    by decide, sourceOf_exampleW2⟩,
   evaluate_line_number_faithful exampleW2 ["a", "b", "c", "d", "e"]
     ["```"] ["x = 1"] "```python" ["from example import *"] srcW2
     rfl rfl rfl
     (by unfold importHeaderOf; rw [_get_import_statements_eval]; rfl)
     (by decide) sourceOf_exampleW2⟩

/-- Concrete example refuting C2 as stated: a fence opening on line 1. -/
def exampleC2 : PyExample :=
  { docLines := ["```python", "x = 1", "```"],
    regionLines := ["```python", "x = 1"], line := 1,
    pathParts := ["example.py".toList] }

/-- Padded source produced for `exampleC2`: the pad amount
`1 - 0 - 6 = -5` is negative, so (as with Python string repetition) no
padding at all is prepended. -/
def srcC2 : List String :=
  ["", "# Generated auto-imports for code example",
   pylintDisableComment "disable", "from example import *",
   pylintDisableComment "enable", "", "x = 1"]

/-- Counterexample to C2 as stated: for a fence opening on line 1 (with one
header import line), the pad amount is negative and truncated to zero, so
the body line "x = 1" — line 2 of the document — sits on line 7 of the
submitted source, not line 2: the source's line 2 is a generated comment. -/
theorem evaluate_line_number_counterexample :
    sourceOf exampleC2 = .ok srcC2 ∧
    exampleC2.docLines[(0 : Nat) + 1]? = exampleC2.regionLines[1]? ∧
    srcC2[(0 : Nat) + 1]? ≠ (dedentLines exampleC2.regionLines)[1]? := by
  refine ⟨?_, rfl, ?_⟩
  · unfold sourceOf importHeaderOf
    rw [_get_import_statements_eval]
    rfl
  · decide

theorem splitOnChar_ne_nil (c : Char) (l : List Char) :
    splitOnChar c l ≠ [] := by
  cases l with
  | nil => simp [splitOnChar]
  | cons a rest =>
    simp only [splitOnChar]
    by_cases h : a = c
    · simp [h]
    · rw [if_neg h]
      cases hr : splitOnChar c rest <;> simp

theorem splitOnChar_ne_single_nil (c : Char) (l : List Char)
    (hl : l ≠ []) : splitOnChar c l ≠ [[]] := by
  cases l with
  | nil => exact absurd rfl hl
  | cons a rest =>
    simp only [splitOnChar]
    by_cases h : a = c
    · rw [if_pos h]
      intro hcontra
      have htail : splitOnChar c rest = [] := by
        injection hcontra
      exact splitOnChar_ne_nil c rest htail
    · rw [if_neg h]
      cases hr : splitOnChar c rest with
      | nil => simp
      | cons g gs => simp

theorem string_toList_eq_nil_iff (s : String) : s.toList = [] ↔ s = "" := by
  constructor
  · intro h
    apply String.ext
    simpa using h
  · intro h
    rw [h]
    rfl

theorem pySplitlines_eq_nil_iff (s : String) :
    pySplitlines s = [] ↔ s = "" := by
  constructor
  · intro h
    by_contra hs
    have hl : s.toList ≠ [] := fun hh =>
      hs ((string_toList_eq_nil_iff s).mp hh)
    unfold pySplitlines at h
    rw [if_neg hl, List.map_eq_nil_iff] at h
    unfold pySplitTrim at h
    by_cases hlast : (splitOnChar '\n' s.toList).getLast? = some []
    · rw [if_pos hlast] at h
      have hlen : (splitOnChar '\n' s.toList).length - 1 = 0 := by
        have := congrArg List.length h
        simpa [List.length_dropLast] using this
      have hne := splitOnChar_ne_nil '\n' s.toList
      have hpos : 0 < (splitOnChar '\n' s.toList).length :=
        List.length_pos.mpr hne
      have hone : (splitOnChar '\n' s.toList).length = 1 := by omega
      obtain ⟨x, hx⟩ := List.length_eq_one.mp hone
      rw [hx] at hlast
      have hx2 : x = [] := by
        simpa using hlast
      rw [hx2] at hx
      exact splitOnChar_ne_single_nil '\n' s.toList hl hx
    · rw [if_neg hlast] at h
      exact splitOnChar_ne_nil '\n' s.toList h
  · intro h
    rw [h]
    rfl

theorem strToList_append (a b : String) :
    (a ++ b).toList = a.toList ++ b.toList :=
  String.data_append a b

theorem toList_joinLines_infix (r : String) (ls : List String)
    (h : r ∈ ls) : r.toList <:+: (joinLines ls).toList := by
  induction ls with
  | nil => cases h
  | cons l rest ih =>
    cases rest with
    | nil =>
      rcases List.mem_singleton.mp h with rfl
      exact List.infix_refl _
    | cons k ks =>
      rcases List.mem_cons.mp h with rfl | hmem
      · show r.toList <:+: ((r ++ "\n") ++ joinLines (k :: ks)).toList
        rw [strToList_append, strToList_append, List.append_assoc]
        exact (List.prefix_append _ _).isInfix
      · have h2 : (joinLines (k :: ks)).toList <:+
            ((l ++ "\n") ++ joinLines (k :: ks)).toList := by
          rw [strToList_append]
          exact List.suffix_append _ _
        exact (ih hmem).trans h2.isInfix

/-- C4 (amended): `evaluate` returns `none` exactly when the checker's
response is empty, which happens exactly when pylint exits with status zero
or its captured output is empty (the code splits the captured output into
lines and only reports when there is at least one); otherwise it returns a
message containing every line of the checker's output.  (The claim's "iff
the checker succeeds" fails when pylint exits non-zero with empty captured
output; see the counterexample.) -/
theorem evaluate_pylint_response
    (oracle : PylintOracle) (ex : PyExample) (ewi src : List String)
    (hewi : exampleWithImports ex = .ok ewi)
    (hsrc : sourceOf ex = .ok src) :
    (evaluate oracle ex = .ok none ↔
      _validate_with_pylint oracle src ex.pathParts pylint_disable_params
        = []) ∧
    (_validate_with_pylint oracle src ex.pathParts pylint_disable_params
        = [] ↔
      ((oracle src ex.pathParts pylint_disable_params).exitZero = true ∨
       (oracle src ex.pathParts pylint_disable_params).output = "")) ∧
    (_validate_with_pylint oracle src ex.pathParts pylint_disable_params
        ≠ [] →
      ∃ msg, evaluate oracle ex = .ok (some msg) ∧
        ∀ r ∈ _validate_with_pylint oracle src ex.pathParts
            pylint_disable_params, r.toList <:+: msg.toList) := by
  have hev : evaluate oracle ex =
      (if 0 < (_validate_with_pylint oracle src ex.pathParts
          pylint_disable_params).length then
        .ok (some ("Pylint validation failed for code example:\n" ++
          joinLines ewi ++ "\nOutput: " ++
          joinLines (_validate_with_pylint oracle src ex.pathParts
            pylint_disable_params)))
      else .ok none) := by
    unfold evaluate
    rw [hewi, hsrc]
  refine ⟨?_, ?_, ?_⟩
  · rw [hev]
    by_cases hr : _validate_with_pylint oracle src ex.pathParts
        pylint_disable_params = []
    · simp [hr]
    · rw [if_pos (List.length_pos.mpr hr)]
      simp [hr]
  · unfold _validate_with_pylint
    by_cases hz : (oracle src ex.pathParts pylint_disable_params).exitZero
    · simp [hz]
    · simp only [hz, Bool.false_eq_true, if_false]
      rw [pySplitlines_eq_nil_iff]
      simp [hz]
  · intro hne
    rw [hev, if_pos (List.length_pos.mpr hne)]
    refine ⟨_, rfl, ?_⟩
    intro r hr
    have h1 : r.toList <:+:
        (joinLines (_validate_with_pylint oracle src ex.pathParts
          pylint_disable_params)).toList :=
      toList_joinLines_infix r _ hr
    have h2 : (joinLines (_validate_with_pylint oracle src ex.pathParts
        pylint_disable_params)).toList <:+
        ((("Pylint validation failed for code example:\n" ++
          joinLines ewi) ++ "\nOutput: ") ++
          joinLines (_validate_with_pylint oracle src ex.pathParts
            pylint_disable_params)).toList := by
      rw [strToList_append]
      exact List.suffix_append _ _
    exact h1.trans h2.isInfix

/-- Import header characterised from its two ingredients. -/
theorem importHeaderOf_eq (ex : PyExample) (ih : List String)
    (w : List Char)
    (hih : _get_import_statements ex.docLines = some ih)
    (hw : _path_to_import_statement ex.pathParts = .ok w) :
    importHeaderOf ex = .ok (ih ++ [String.mk w]) := by
  unfold importHeaderOf
  rw [hih, hw]

/-- C7 (amended): the reconstructed snippet consists of, in order: a fixed
generated header (a blank line, a comment line and a pylint-disable
comment), the original file's import statements, the wildcard import derived
from the file's path, a fixed pylint-enable comment and blank line, and the
dedented fence body with its first line (the opening triple-backtick line)
removed. -/
theorem snippet_structure
    (ex : PyExample) (ih : List String) (w : List Char)
    (hih : _get_import_statements ex.docLines = some ih)
    (hw : _path_to_import_statement ex.pathParts = .ok w) :
    exampleWithImports ex =
      .ok (["", "# Generated auto-imports for code example",
            pylintDisableComment "disable"] ++
           (ih ++ [String.mk w]) ++
           [pylintDisableComment "enable", ""] ++
           (dedentLines ex.regionLines).drop 1) := by
  unfold exampleWithImports
  rw [importHeaderOf_eq ex ih w hih hw]
  rfl

/-- Concrete example used as the C7 witness. -/
def exampleW7 : PyExample :=
  { docLines := ["import os", "```python", "x = 1", "```"],
    regionLines := ["```python", "x = 1"], line := 2,
    pathParts := ["example.py".toList] }

/-- Witness for C7 at `exampleW7`. -/
theorem snippet_structure_witness :
    (_get_import_statements exampleW7.docLines = some ["import os"] ∧
     _path_to_import_statement exampleW7.pathParts =
        .ok "from example import *".toList) ∧
    exampleWithImports exampleW7 =
      .ok (["", "# Generated auto-imports for code example",
            pylintDisableComment "disable"] ++
           (["import os"] ++ [String.mk "from example import *".toList]) ++
           [pylintDisableComment "enable", ""] ++
           (dedentLines exampleW7.regionLines).drop 1) :=
  ⟨⟨by rw [_get_import_statements_eval]; rfl, rfl⟩,
   snippet_structure exampleW7 ["import os"] "from example import *".toList
     (by rw [_get_import_statements_eval]; rfl) rfl⟩

/-- Concrete example refuting C7 as stated. -/
def exampleC7 : PyExample :=
  { docLines := ["import os", "```python", "x = 1", "```"],
    regionLines := ["```python", "x = 1"], line := 2,
    pathParts := ["example.py".toList] }

/-- Counterexample to C7 as stated: the reconstructed snippet is not just
the imports, the wildcard import and the dedented body; it also contains
the generated comment header, the pylint-control comments and a blank
line. -/
theorem snippet_structure_counterexample :
    _get_import_statements exampleC7.docLines = some ["import os"] ∧
    _path_to_import_statement exampleC7.pathParts =
      .ok "from example import *".toList ∧
    (dedentLines exampleC7.regionLines).drop 1 = ["x = 1"] ∧
    exampleWithImports exampleC7 =
      .ok ["", "# Generated auto-imports for code example",
           pylintDisableComment "disable", "import os",
           "from example import *", pylintDisableComment "enable", "",
           "x = 1"] ∧
    (["", "# Generated auto-imports for code example",
      pylintDisableComment "disable", "import os",
      "from example import *", pylintDisableComment "enable", "",
      "x = 1"] : List String) ≠
      ["import os"] ++ ["from example import *"] ++ ["x = 1"] := by
  refine ⟨by rw [_get_import_statements_eval]; rfl, rfl, rfl, ?_,
    by decide⟩
  unfold exampleWithImports importHeaderOf
  rw [_get_import_statements_eval]
  rfl

/-- Oracle for the C4 witness: the checker succeeds. -/
def oracleW4 : PylintOracle := fun _ _ _ => { exitZero := true, output := "" }

/-- Concrete example used as the C4 witness. -/
def exampleW4 : PyExample :=
  { docLines := ["```python", "x = 1", "```"],
    regionLines := ["```python", "x = 1"], line := 1,
    pathParts := ["example.py".toList] }

/-- Formatted snippet and (unpadded, the pad amount being negative) source
for `exampleW4`. -/
def linesW4 : List String :=
  ["", "# Generated auto-imports for code example",
   pylintDisableComment "disable", "from example import *",
   pylintDisableComment "enable", "", "x = 1"]

theorem exampleWithImports_W4 : exampleWithImports exampleW4 = .ok linesW4 := by
  unfold exampleWithImports importHeaderOf
  rw [_get_import_statements_eval]
  rfl

theorem sourceOf_W4 : sourceOf exampleW4 = .ok linesW4 := by
  unfold sourceOf importHeaderOf
  rw [_get_import_statements_eval]
  rfl

/-- Witness for C4 at `exampleW4` with a succeeding checker. -/
theorem evaluate_pylint_response_witness :
    (exampleWithImports exampleW4 = .ok linesW4 ∧
     sourceOf exampleW4 = .ok linesW4) ∧
    ((evaluate oracleW4 exampleW4 = .ok none ↔
      _validate_with_pylint oracleW4 linesW4 exampleW4.pathParts
        pylint_disable_params = []) ∧
     (_validate_with_pylint oracleW4 linesW4 exampleW4.pathParts
        pylint_disable_params = [] ↔
      ((oracleW4 linesW4 exampleW4.pathParts
          pylint_disable_params).exitZero = true ∨
       (oracleW4 linesW4 exampleW4.pathParts
          pylint_disable_params).output = "")) ∧
     (_validate_with_pylint oracleW4 linesW4 exampleW4.pathParts
        pylint_disable_params ≠ [] →
      ∃ msg, evaluate oracleW4 exampleW4 = .ok (some msg) ∧
        ∀ r ∈ _validate_with_pylint oracleW4 linesW4 exampleW4.pathParts
            pylint_disable_params, r.toList <:+: msg.toList)) :=
  ⟨⟨exampleWithImports_W4, sourceOf_W4⟩,
   evaluate_pylint_response oracleW4 exampleW4 linesW4 linesW4
     exampleWithImports_W4 sourceOf_W4⟩

/-- Oracle refuting C4 as stated: pylint exits with a non-zero status but
its captured standard output is empty (for example when the failure is
reported on stderr only). -/
def oracleC4 : PylintOracle :=
  fun _ _ _ => { exitZero := false, output := "" }

/-- Concrete example used in the C4 counterexample. -/
def exampleC4 : PyExample :=
  { docLines := ["```python", "x = 1", "```"],
    regionLines := ["```python", "x = 1"], line := 1,
    pathParts := ["example.py".toList] }

/-- Source submitted to the checker for `exampleC4`. -/
def linesC4 : List String :=
  ["", "# Generated auto-imports for code example",
   pylintDisableComment "disable", "from example import *",
   pylintDisableComment "enable", "", "x = 1"]

/-- Counterexample to C4 as stated: on the actual invocation the checker
exits with non-zero status, yet `evaluate` returns `none`, because an empty
captured output splits into no lines. -/
theorem evaluate_pylint_counterexample :
    (oracleC4 linesC4 exampleC4.pathParts
        pylint_disable_params).exitZero = false ∧
    evaluate oracleC4 exampleC4 = .ok none := by
  refine ⟨rfl, ?_⟩
  unfold evaluate exampleWithImports sourceOf importHeaderOf
  rw [_get_import_statements_eval]
  rfl

/-- C6: both core routines are pure and deterministic: on equal inputs the
version sort writes identical output, and (relative to a fixed external
checker) the example validator returns the same result. -/
theorem core_routines_deterministic
    (vs ws : List MikeVersionInfo) (hvw : vs = ws)
    (oracle : PylintOracle) (ex1 ex2 : PyExample) (hex : ex1 = ex2) :
    _sort vs = _sort ws ∧ evaluate oracle ex1 = evaluate oracle ex2 :=
  ⟨by rw [hvw], by rw [hex]⟩

/-- Oracle and example used as the C6 witness. -/
def oracleW6 : PylintOracle := fun _ _ _ => { exitZero := true, output := "" }

/-- Concrete example used as the C6 witness. -/
def exampleW6 : PyExample :=
  { docLines := ["```python", "pass", "```"],
    regionLines := ["```python", "pass"], line := 1,
    pathParts := ["example.py".toList] }

/-- Witness for C6 at concrete inputs. -/
theorem core_routines_deterministic_witness :
    (([⟨"v1.0.0", "v1.0.0", []⟩] : List MikeVersionInfo) =
        [⟨"v1.0.0", "v1.0.0", []⟩] ∧
     exampleW6 = exampleW6) ∧
    (_sort [⟨"v1.0.0", "v1.0.0", []⟩] = _sort [⟨"v1.0.0", "v1.0.0", []⟩] ∧
     evaluate oracleW6 exampleW6 = evaluate oracleW6 exampleW6) :=
  ⟨⟨rfl, rfl⟩,
   core_routines_deterministic _ _ rfl oracleW6 exampleW6 exampleW6 rfl⟩
